import Mathlib

/-!
Verification of the RUN DAO on-chain quest lifecycle, escrow settlement and
medal system, as implemented by the Solidity contracts `QuestFactory.sol`,
`EscrowVault.sol` and `MedalNFT.sol`.

The contracts are shallowly embedded: contract storage becomes explicit state
records, every external function becomes a Lean function from the pre-state to
`Option` of the post-state (`none` models a revert, which in the EVM rolls back
every effect of the call), and `uint256` arithmetic becomes `Nat` with explicit
checked operations that fail at `2 ^ 256` exactly where Solidity 0.8 reverts on
overflow or underflow.  ERC20 token balances are modelled as a ledger mapping
token and holder to an amount; the allowance bookkeeping of `transferFrom` is
abstracted away (a transfer succeeds exactly when the source balance suffices).
`block.timestamp` and `msg.sender` are passed explicitly.  Solidity mappings
are total functions returning the zero value of their range, matching EVM
storage semantics.
-/

namespace RunDao

abbrev Addr := Nat
abbrev Token := Nat

/-- The modulus of `uint256` arithmetic. -/
def U256 : Nat := 2 ^ 256

/-- Checked `uint256` addition; Solidity 0.8 reverts on overflow. -/
def cadd (a b : Nat) : Option Nat :=
  if a + b < U256 then some (a + b) else none

/-- Checked `uint256` subtraction; Solidity 0.8 reverts on underflow. -/
def csub (a b : Nat) : Option Nat :=
  if b ≤ a then some (a - b) else none

/-- Checked `uint256` multiplication; Solidity 0.8 reverts on overflow. -/
def cmul (a b : Nat) : Option Nat :=
  if a * b < U256 then some (a * b) else none

/-- Pointwise update of a total map, the shallow embedding of a Solidity
mapping assignment. -/
def upd {α β : Type} [DecidableEq α] (f : α → β) (a : α) (b : β) : α → β :=
  fun x => if x = a then b else f x

/-- ERC20 balance bookkeeping for a `safeTransfer`: moves `amt` of token `t`
from `src` to `dst`, reverting when the source balance is insufficient. -/
def erc20Transfer (l : Token → Addr → Nat) (t : Token) (src dst : Addr)
    (amt : Nat) : Option (Token → Addr → Nat) :=
  (csub (l t src) amt).bind fun sb =>
    let l1 := upd l t (upd (l t) src sb)
    (cadd (l1 t dst) amt).map fun db =>
      upd l1 t (upd (l1 t) dst db)

/-! ## EscrowVault storage -/

/-- EscrowVault.EscrowRecord. -/
structure EscrowRecord where
  questId : Nat
  participant : Addr
  token : Token
  amount : Nat
  isLocked : Bool
  lockedAt : Nat
deriving DecidableEq

def EscrowRecord.zero : EscrowRecord := ⟨0, 0, 0, 0, false, 0⟩

/-- EscrowVault.Settlement. -/
structure Settlement where
  questId : Nat
  token : Token
  totalAmount : Nat
  winnersCount : Nat
  losersCount : Nat
  winnersReward : Nat
  daoAmount : Nat
  protocolFee : Nat
  settledAt : Nat
deriving DecidableEq

def Settlement.zero : Settlement := ⟨0, 0, 0, 0, 0, 0, 0, 0, 0⟩

/-- Storage of the EscrowVault contract.  `escrowRecords` is keyed by the
pair `(questId, participant)`, the preimage of the contract's
`keccak256(abi.encodePacked(questId, participant))` key (keccak is assumed
collision free).  `balances` and `totalLocked` are the vault's internal
bookkeeping mappings, distinct from the ERC20 ledger. -/
structure VaultState where
  escrowRecords : Nat × Addr → EscrowRecord
  settlements : Nat → Settlement
  balances : Token → Addr → Nat
  totalLocked : Token → Nat
  authorizedContracts : Addr → Bool
  protocolFeeRecipient : Addr
  owner : Addr

/-- EscrowVault.MAX_PROTOCOL_FEE (20 percent in basis points). -/
def MAX_PROTOCOL_FEE : Nat := 2000

/-! ## QuestFactory storage -/

/-- QuestFactory.QuestStatus; the zero value of the enum is `Draft`. -/
inductive QuestStatus
  | Draft
  | Open
  | Active
  | Completed
  | Cancelled
deriving DecidableEq

/-- QuestFactory.Quest. -/
structure Quest where
  id : Nat
  creator : Addr
  title : String
  descr : String
  startTime : Nat
  endTime : Nat
  distanceKm : Nat
  timesPerWeek : Nat
  stakeToken : Token
  stakeAmount : Nat
  maxSlots : Nat
  successRate : Nat
  daoRate : Nat
  protocolFeeRate : Nat
  status : QuestStatus
  participantCount : Nat
  createdAt : Nat
deriving DecidableEq

def Quest.zero : Quest :=
  ⟨0, 0, "", "", 0, 0, 0, 0, 0, 0, 0, 0, 0, 0, .Draft, 0, 0⟩

/-- QuestFactory.Participation. -/
structure Participation where
  participant : Addr
  stakedAmount : Nat
  isActive : Bool
  joinedAt : Nat
deriving DecidableEq

def Participation.zero : Participation := ⟨0, 0, false, 0⟩

/-- Storage of the QuestFactory contract. -/
structure FactoryState where
  quests : Nat → Quest
  participations : Nat → Addr → Participation
  questParticipants : Nat → List Addr
  questCounter : Nat
  defaultSuccessRate : Nat
  defaultDaoRate : Nat
  defaultProtocolFeeRate : Nat
  escrowVault : Addr
  daoTreasury : Addr
  supportedTokens : Token → Bool
  owner : Addr

/-- The composed on-chain state: the ERC20 ledger shared by both contracts,
the storage of each contract, and the contracts' own account addresses. -/
structure Chain where
  ledger : Token → Addr → Nat
  vault : VaultState
  factory : FactoryState
  vaultAddr : Addr
  factoryAddr : Addr

/-! ## EscrowVault functions -/

/-- EscrowVault.depositForQuest.  The function records the escrow and raises
the internal counters; it performs no token transfer itself (the caller is
expected to have moved the tokens separately). -/
def depositForQuest (c : Chain) (sender : Addr) (questId : Nat)
    (participant : Addr) (token : Token) (amount now : Nat) : Option Chain :=
  if !(c.vault.authorizedContracts sender) then none
  else if amount = 0 then none
  else
    let rcd : EscrowRecord := ⟨questId, participant, token, amount, true, now⟩
    (cadd (c.vault.balances token participant) amount).bind fun b =>
      (cadd (c.vault.totalLocked token) amount).map fun tl =>
        { c with vault := { c.vault with
            escrowRecords := upd c.vault.escrowRecords (questId, participant) rcd
            balances := upd c.vault.balances token
              (upd (c.vault.balances token) participant b)
            totalLocked := upd c.vault.totalLocked token tl } }

/-- EscrowVault._transferFromEscrow: requires a nonzero recipient and a
positive amount, then transfers from the vault's token balance. -/
def transferFromEscrow (l : Token → Addr → Nat) (t : Token)
    (vaultA dst : Addr) (amt : Nat) : Option (Token → Addr → Nat) :=
  if dst = 0 then none
  else if amt = 0 then none
  else erc20Transfer l t vaultA dst amt

/-- The winner payout loop of EscrowVault.distributeQuestRewards: every entry
of the winners array receives `per` tokens from the vault. -/
def payWinners (l : Token → Addr → Nat) (t : Token) (vaultA : Addr)
    (winners : List Addr) (per : Nat) : Option (Token → Addr → Nat) :=
  winners.foldlM (fun acc w => transferFromEscrow acc t vaultA w per) l

/-- Accumulator for EscrowVault._updateLockedAmountsAfterSettlement. -/
structure UnlockAcc where
  escrowRecords : Nat × Addr → EscrowRecord
  balances : Token → Addr → Nat
  totalLocked : Token → Nat

/-- One iteration of EscrowVault._updateLockedAmountsAfterSettlement: a locked
record is unlocked and the internal counters are decremented. -/
def unlockOne (questId : Nat) (t : Token) (acc : UnlockAcc) (p : Addr) :
    Option UnlockAcc :=
  let rcd := acc.escrowRecords (questId, p)
  if rcd.isLocked then
    (csub (acc.balances t p) rcd.amount).bind fun b =>
      (csub (acc.totalLocked t) rcd.amount).map fun tl =>
        ⟨upd acc.escrowRecords (questId, p) { rcd with isLocked := false },
         upd acc.balances t (upd (acc.balances t) p b),
         upd acc.totalLocked t tl⟩
  else some acc

/-- EscrowVault._updateLockedAmountsAfterSettlement iterates over the
concatenation of winners and losers. -/
def updateLockedAfterSettlement (questId : Nat) (t : Token)
    (winners losers : List Addr) (acc : UnlockAcc) : Option UnlockAcc :=
  (winners ++ losers).foldlM (unlockOne questId t) acc

/-- Result of the settlement computation before it is written back. -/
structure DistOutcome where
  ledger : Token → Addr → Nat
  escrowRecords : Nat × Addr → EscrowRecord
  balances : Token → Addr → Nat
  totalLocked : Token → Nat
  settlement : Settlement

/-- The two rate requires of EscrowVault.distributeQuestRewards: the three
rates must sum (with checked addition) to 10000 basis points and the
protocol fee rate may not exceed MAX_PROTOCOL_FEE. -/
def ratesValid (successRate daoRate protocolFeeRate : Nat) : Option Unit :=
  (cadd successRate daoRate).bind fun s1 =>
  (cadd s1 protocolFeeRate).bind fun s2 =>
  if s2 ≠ 10000 then none
  else if protocolFeeRate > MAX_PROTOCOL_FEE then none
  else some ()

/-- The pool computation of EscrowVault.distributeQuestRewards:
winnersReward, daoAmount and protocolFee as basis-point shares of the total,
with checked multiplication. -/
def computePools (totalAmount successRate daoRate protocolFeeRate : Nat) :
    Option (Nat × Nat × Nat) :=
  (cmul totalAmount successRate).bind fun m1 =>
  (cmul totalAmount daoRate).bind fun m2 =>
  (cmul totalAmount protocolFeeRate).map fun m3 =>
  (m1 / 10000, m2 / 10000, m3 / 10000)

/-- The three transfer sections of EscrowVault.distributeQuestRewards: the per
winner payouts, the DAO treasury transfer (skipped when the amount is zero or
the treasury unset) and the protocol fee transfer (likewise). -/
def payOut (l : Token → Addr → Nat) (token : Token) (vaultA : Addr)
    (winners : List Addr) (winnersReward daoAmount protocolFee : Nat)
    (daoTreasury feeRecipient : Addr) : Option (Token → Addr → Nat) :=
  (if winners.length > 0 ∧ winnersReward > 0 then
    payWinners l token vaultA winners (winnersReward / winners.length)
  else some l).bind fun l1 =>
  (if daoAmount > 0 ∧ daoTreasury ≠ 0 then
    erc20Transfer l1 token vaultA daoTreasury daoAmount
  else some l1).bind fun l2 =>
  (if protocolFee > 0 ∧ feeRecipient ≠ 0 then
    erc20Transfer l2 token vaultA feeRecipient protocolFee
  else some l2)

/-- The body of EscrowVault.distributeQuestRewards, taking exactly the pieces
of state the Solidity function reads.  Note that the function never reads the
`settlements` mapping: there is no already-settled guard. -/
def distributeCore (auth : Bool) (vaultA feeRecipient : Addr)
    (l : Token → Addr → Nat) (records : Nat × Addr → EscrowRecord)
    (balances : Token → Addr → Nat) (locked : Token → Nat)
    (questId : Nat) (token : Token) (totalAmount : Nat)
    (winners losers : List Addr)
    (successRate daoRate protocolFeeRate : Nat) (daoTreasury : Addr)
    (now : Nat) : Option DistOutcome :=
  if !auth then none
  else
    (ratesValid successRate daoRate protocolFeeRate).bind fun _ =>
    if totalAmount = 0 then none
    else
      (computePools totalAmount successRate daoRate protocolFeeRate).bind
        fun pools =>
      (payOut l token vaultA winners pools.1 pools.2.1 pools.2.2 daoTreasury
        feeRecipient).bind fun l3 =>
      (updateLockedAfterSettlement questId token winners losers
        ⟨records, balances, locked⟩).map fun acc =>
      ⟨l3, acc.escrowRecords, acc.balances, acc.totalLocked,
        ⟨questId, token, totalAmount, winners.length, losers.length,
         pools.1, pools.2.1, pools.2.2, now⟩⟩

/-- EscrowVault.distributeQuestRewards: runs the settlement computation and
writes the new ledger, escrow bookkeeping and the Settlement record. -/
def distributeQuestRewards (c : Chain) (sender : Addr) (questId : Nat)
    (token : Token) (totalAmount : Nat) (winners losers : List Addr)
    (successRate daoRate protocolFeeRate : Nat) (daoTreasury : Addr)
    (now : Nat) : Option Chain :=
  (distributeCore (c.vault.authorizedContracts sender) c.vaultAddr
      c.vault.protocolFeeRecipient c.ledger c.vault.escrowRecords
      c.vault.balances c.vault.totalLocked questId token totalAmount
      winners losers successRate daoRate protocolFeeRate daoTreasury now).map
    fun o =>
      { c with
        ledger := o.ledger
        vault := { c.vault with
          escrowRecords := o.escrowRecords
          balances := o.balances
          totalLocked := o.totalLocked
          settlements := upd c.vault.settlements questId o.settlement } }

/-- EscrowVault.refundParticipant. -/
def refundParticipant (c : Chain) (sender : Addr) (questId : Nat)
    (participant : Addr) (token : Token) (amount : Nat) : Option Chain :=
  if !(c.vault.authorizedContracts sender) then none
  else
    let rcd := c.vault.escrowRecords (questId, participant)
    if !rcd.isLocked then none
    else if rcd.amount < amount then none
    else
      let newAmount := rcd.amount - amount
      let rcd2 := { rcd with amount := newAmount
                             isLocked := decide (0 < newAmount) }
      (csub (c.vault.balances token participant) amount).bind fun b =>
      (csub (c.vault.totalLocked token) amount).bind fun tl =>
      (erc20Transfer c.ledger token c.vaultAddr participant amount).map
        fun l2 =>
          { c with
            ledger := l2
            vault := { c.vault with
              escrowRecords :=
                upd c.vault.escrowRecords (questId, participant) rcd2
              balances := upd c.vault.balances token
                (upd (c.vault.balances token) participant b)
              totalLocked := upd c.vault.totalLocked token tl } }

/-- EscrowVault.emergencyWithdraw: owner-only escape hatch; transfers tokens
out of the vault without touching escrow records or `totalLocked`. -/
def emergencyWithdraw (c : Chain) (sender : Addr) (token : Token)
    (recipient : Addr) (amount : Nat) : Option Chain :=
  if sender ≠ c.vault.owner then none
  else if recipient = 0 then none
  else if amount = 0 then none
  else
    (erc20Transfer c.ledger token c.vaultAddr recipient amount).map fun l2 =>
      { c with ledger := l2 }

/-! ## QuestFactory functions -/

/-- QuestFactory.createQuest; returns the new quest id. -/
def createQuest (c : Chain) (sender : Addr) (now : Nat)
    (title descr : String) (startTime endTime distanceKm timesPerWeek : Nat)
    (stakeToken : Token) (stakeAmount maxSlots : Nat) :
    Option (Chain × Nat) :=
  if ¬ startTime > now then none
  else if ¬ endTime > startTime then none
  else if distanceKm = 0 then none
  else if timesPerWeek = 0 then none
  else if stakeAmount = 0 then none
  else if maxSlots = 0 then none
  else if !(c.factory.supportedTokens stakeToken) then none
  else
    let questId := c.factory.questCounter + 1
    let q : Quest :=
      { id := questId, creator := sender, title := title, descr := descr
        startTime := startTime, endTime := endTime, distanceKm := distanceKm
        timesPerWeek := timesPerWeek, stakeToken := stakeToken
        stakeAmount := stakeAmount, maxSlots := maxSlots
        successRate := c.factory.defaultSuccessRate
        daoRate := c.factory.defaultDaoRate
        protocolFeeRate := c.factory.defaultProtocolFeeRate
        status := .Open, participantCount := 0, createdAt := now }
    some ({ c with factory := { c.factory with
              questCounter := questId
              quests := upd c.factory.quests questId q } }, questId)

/-- QuestFactory.joinQuest.  The stake is transferred straight to the address
stored in `escrowVault` on the ERC20 ledger; the factory never calls
`depositForQuest`, so the vault's own bookkeeping is untouched.  The final
conditional is the verbatim auto-activation branch of the source. -/
def joinQuest (c : Chain) (sender : Addr) (now : Nat) (questId : Nat) :
    Option Chain :=
  let q := c.factory.quests questId
  if q.id = 0 then none
  else if q.status ≠ QuestStatus.Open then none
  else if ¬ now < q.startTime then none
  else if ¬ q.participantCount < q.maxSlots then none
  else if (c.factory.participations questId sender).isActive then none
  else
    (erc20Transfer c.ledger q.stakeToken sender c.factory.escrowVault
        q.stakeAmount).map fun l2 =>
      let p : Participation := ⟨sender, q.stakeAmount, true, now⟩
      let q2 := { q with participantCount := q.participantCount + 1 }
      let q3 := if now ≥ q2.startTime ∧ q2.status = QuestStatus.Open then
          { q2 with status := QuestStatus.Active }
        else q2
      { c with
        ledger := l2
        factory := { c.factory with
          participations := upd c.factory.participations questId
            (upd (c.factory.participations questId) sender p)
          questParticipants := upd c.factory.questParticipants questId
            (c.factory.questParticipants questId ++ [sender])
          quests := upd c.factory.quests questId q3 } }

/-- QuestFactory.completeQuest.  The losers array is allocated with length
`participants - winners` and filled with every participant not contained in
the winners array; the fill reverts on overflow of the allocation and any
unfilled tail slots stay at the zero address, exactly as in the source. -/
def completeQuest (c : Chain) (sender : Addr) (now : Nat) (questId : Nat)
    (winners : List Addr) : Option Chain :=
  if sender ≠ c.factory.owner then none
  else
    let q := c.factory.quests questId
    if q.id = 0 then none
    else if q.status ≠ QuestStatus.Active then none
    else if now < q.endTime then none
    else
      let allParticipants := c.factory.questParticipants questId
      (cmul q.participantCount q.stakeAmount).bind fun totalStaked =>
      (csub allParticipants.length winners.length).bind fun allocLen =>
      let actualLosers := allParticipants.filter fun a => !(winners.contains a)
      if actualLosers.length > allocLen then none
      else
        let losers :=
          actualLosers ++ List.replicate (allocLen - actualLosers.length) 0
        (distributeQuestRewards c c.factoryAddr questId q.stakeToken
            totalStaked winners losers q.successRate q.daoRate
            q.protocolFeeRate c.factory.daoTreasury now).map fun c2 =>
          { c2 with factory := { c2.factory with
              quests := upd c2.factory.quests questId
                { c2.factory.quests questId with
                    status := QuestStatus.Completed } } }

/-- One iteration of the refund loop of QuestFactory.cancelQuest. -/
def cancelRefundStep (questId : Nat) (stakeToken : Token) (stakeAmount : Nat)
    (c : Chain) (p : Addr) : Option Chain :=
  if (c.factory.participations questId p).isActive then
    (refundParticipant c c.factoryAddr questId p stakeToken stakeAmount).map
      fun c2 =>
        { c2 with factory := { c2.factory with
            participations := upd c2.factory.participations questId
              (upd (c2.factory.participations questId) p
                { c2.factory.participations questId p with
                    isActive := false }) } }
  else some c

/-- QuestFactory.cancelQuest. -/
def cancelQuest (c : Chain) (sender : Addr) (now : Nat) (questId : Nat) :
    Option Chain :=
  let q := c.factory.quests questId
  if q.id = 0 then none
  else if ¬ (sender = q.creator ∨ sender = c.factory.owner) then none
  else if q.status ≠ QuestStatus.Open then none
  else if ¬ now < q.startTime then none
  else
    ((c.factory.questParticipants questId).foldlM
        (cancelRefundStep questId q.stakeToken q.stakeAmount) c).map fun c2 =>
      { c2 with factory := { c2.factory with
          quests := upd c2.factory.quests questId
            { c2.factory.quests questId with
                status := QuestStatus.Cancelled } } }

/-- QuestFactory.emergencyUpdateQuestStatus (owner only). -/
def emergencyUpdateQuestStatus (c : Chain) (sender : Addr) (questId : Nat)
    (st : QuestStatus) : Option Chain :=
  if sender ≠ c.factory.owner then none
  else
    some { c with factory := { c.factory with
      quests := upd c.factory.quests questId
        { c.factory.quests questId with status := st } } }

/-! ## MedalNFT -/

/-- MedalNFT.MedalType; the zero value of the enum is `Gold`. -/
inductive MedalType
  | Gold
  | Grey
  | Special
  | Seasonal
deriving DecidableEq

/-- MedalNFT.Rarity; the zero value of the enum is `Common`. -/
inductive Rarity
  | Common
  | Uncommon
  | Rare
  | Epic
  | Legendary
deriving DecidableEq

/-- Conversion of a stored uint back to the Rarity enum; Solidity 0.8 reverts
on an out-of-range enum cast. -/
def rarityOfNat : Nat → Option Rarity
  | 0 => some .Common
  | 1 => some .Uncommon
  | 2 => some .Rare
  | 3 => some .Epic
  | 4 => some .Legendary
  | _ => none

/-- MedalNFT.Medal. -/
structure Medal where
  tokenId : Nat
  questId : Nat
  recipient : Addr
  medalType : MedalType
  rarity : Rarity
  title : String
  descr : String
  imageHash : String
  mintedAt : Nat
  distanceKm : Nat
  completedSessions : Nat
  totalParticipants : Nat
  personalStory : String
  isUpgradeable : Bool
  upgradeLevel : Nat
  sourceTokenIds : List Nat
deriving DecidableEq

def Medal.zero : Medal :=
  ⟨0, 0, 0, .Gold, .Common, "", "", "", 0, 0, 0, 0, "", false, 0, []⟩

/-- Storage of the MedalNFT contract.  `owners` is the ERC721 ownership
mapping, with the zero address denoting a nonexistent (or burned) token.
Token URI storage and season bookkeeping are omitted: no claim refers to
them and they feed back into no other operation. -/
structure MedalState where
  owners : Nat → Addr
  medals : Nat → Medal
  userMedals : Addr → List Nat
  questMedals : Nat → List Nat
  userMedalCounts : Addr → MedalType → Nat
  tokenIdCounter : Nat
  authorizedMinters : Addr → Bool
  owner : Addr

/-- MedalNFT.upgradeRequirements as initialized by the constructor:
3 Grey medals map to Uncommon, 5 Grey to Rare, 10 Gold to Epic, and every
other combination to the zero value (Common). -/
def upgradeRequirements : MedalType → Nat → Nat
  | .Grey, 3 => 1
  | .Grey, 5 => 2
  | .Gold, 10 => 3
  | _, _ => 0

/-- MedalNFT._calculateRarity. -/
def calculateRarity (t : MedalType) (completedSessions totalParticipants : Nat) :
    Rarity :=
  if t = .Gold then
    if totalParticipants ≥ 100 then .Legendary
    else if totalParticipants ≥ 50 then .Epic
    else if totalParticipants ≥ 20 then .Rare
    else .Uncommon
  else if t = .Grey then
    if completedSessions ≥ 5 then .Uncommon else .Common
  else .Common

/-- MedalNFT.mintQuestMedal; returns the new token id.  The `_safeMint`
requirement that the token id is fresh is the `owners tokenId ≠ 0` check;
`_checkAndAutoUpgrade` has an empty body in the source and is omitted. -/
def mintQuestMedal (s : MedalState) (sender recipient : Addr) (questId : Nat)
    (t : MedalType) (title descr imageHash : String)
    (distanceKm completedSessions totalParticipants : Nat)
    (personalStory : String) (now : Nat) : Option (MedalState × Nat) :=
  if !(s.authorizedMinters sender) then none
  else if recipient = 0 then none
  else
    let tokenId := s.tokenIdCounter + 1
    let rarity := calculateRarity t completedSessions totalParticipants
    let m : Medal :=
      { tokenId := tokenId, questId := questId, recipient := recipient
        medalType := t, rarity := rarity, title := title, descr := descr
        imageHash := imageHash, mintedAt := now, distanceKm := distanceKm
        completedSessions := completedSessions
        totalParticipants := totalParticipants
        personalStory := personalStory
        isUpgradeable := decide (t = MedalType.Grey)
        upgradeLevel := 0, sourceTokenIds := [] }
    if s.owners tokenId ≠ 0 then none
    else
      some ({ s with
        owners := upd s.owners tokenId recipient
        medals := upd s.medals tokenId m
        userMedals := upd s.userMedals recipient
          (s.userMedals recipient ++ [tokenId])
        questMedals := upd s.questMedals questId
          (s.questMedals questId ++ [tokenId])
        userMedalCounts := upd s.userMedalCounts recipient
          (upd (s.userMedalCounts recipient) t
            (s.userMedalCounts recipient t + 1))
        tokenIdCounter := tokenId }, tokenId)

/-- The source-medal verification and burn loop of MedalNFT.upgradeMedals:
checks ownership via ownerOf (which reverts on a burned or nonexistent
token), upgradeability and type consistency, accumulates the distance and
session totals with checked addition, and burns each source medal in turn. -/
def burnLoop (sender : Addr) (medals : Nat → Medal) :
    List Nat → (Nat → Addr) → Option MedalType → Nat → Nat →
    Option ((Nat → Addr) × MedalType × Nat × Nat)
  | [], _, none, _, _ => none
  | [], owners, some t, dist, sess => some (owners, t, dist, sess)
  | tokenId :: rest, owners, st, dist, sess =>
    let o := owners tokenId
    if o = 0 then none
    else if o ≠ sender then none
    else
      let m := medals tokenId
      if !m.isUpgradeable then none
      else
        match st with
        | none =>
          (cadd dist m.distanceKm).bind fun d =>
          (cadd sess m.completedSessions).bind fun se =>
          burnLoop sender medals rest (upd owners tokenId 0)
            (some m.medalType) d se
        | some t =>
          if m.medalType ≠ t then none
          else
            (cadd dist m.distanceKm).bind fun d =>
            (cadd sess m.completedSessions).bind fun se =>
            burnLoop sender medals rest (upd owners tokenId 0) (some t) d se

/-- MedalNFT.upgradeMedals; returns the new token id. -/
def upgradeMedals (s : MedalState) (sender : Addr) (sourceTokenIds : List Nat)
    (newTitle newDescr newImageHash : String) (now : Nat) :
    Option (MedalState × Nat) :=
  if sourceTokenIds.length < 3 then none
  else
    (burnLoop sender s.medals sourceTokenIds s.owners none 0 0).bind
      fun r =>
        let owners2 := r.1
        let sourceType := r.2.1
        let totalDistance := r.2.2.1
        let totalSessions := r.2.2.2
        let newTokenId := s.tokenIdCounter + 1
        (rarityOfNat
            (upgradeRequirements sourceType sourceTokenIds.length)).bind
          fun newRarity =>
            let m : Medal :=
              { tokenId := newTokenId, questId := 0, recipient := sender
                medalType := .Special, rarity := newRarity
                title := newTitle, descr := newDescr
                imageHash := newImageHash, mintedAt := now
                distanceKm := totalDistance
                completedSessions := totalSessions
                totalParticipants := sourceTokenIds.length
                personalStory := "Upgraded from dedication and perseverance"
                isUpgradeable := false, upgradeLevel := 1
                sourceTokenIds := sourceTokenIds }
            if owners2 newTokenId ≠ 0 then none
            else if sender = 0 then none
            else
              some ({ s with
                owners := upd owners2 newTokenId sender
                medals := upd s.medals newTokenId m
                userMedals := upd s.userMedals sender
                  (s.userMedals sender ++ [newTokenId])
                userMedalCounts := upd s.userMedalCounts sender
                  (upd (s.userMedalCounts sender) .Special
                    (s.userMedalCounts sender .Special + 1))
                tokenIdCounter := newTokenId }, newTokenId)

/-! ## Concrete deployment and scenario states

A deployed configuration mirroring the repository's deploy script and test
setup: account 1 owns both contracts and is the quest creator, the vault
contract sits at address 2, the factory at address 3 (and is the only
authorized contract on the vault), the DAO treasury is address 4, the
protocol fee recipient address 5; users hold balances of the supported
stake token 9. -/

/-- Initial ERC20 ledger: users 6, 7, 11 and 12 each hold 10 units of
token 9. -/
def ledger0 : Token → Addr → Nat := fun t a =>
  if t = 9 ∧ (a = 6 ∨ a = 7 ∨ a = 11 ∨ a = 12) then 10 else 0

def vault0 : VaultState :=
  { escrowRecords := fun _ => EscrowRecord.zero
    settlements := fun _ => Settlement.zero
    balances := fun _ _ => 0
    totalLocked := fun _ => 0
    authorizedContracts := fun a => decide (a = 3)
    protocolFeeRecipient := 5
    owner := 1 }

def factory0 : FactoryState :=
  { quests := fun _ => Quest.zero
    participations := fun _ _ => Participation.zero
    questParticipants := fun _ => []
    questCounter := 0
    defaultSuccessRate := 8000
    defaultDaoRate := 1000
    defaultProtocolFeeRate := 1000
    escrowVault := 2
    daoTreasury := 4
    supportedTokens := fun t => decide (t = 9)
    owner := 1 }

def chain0 : Chain := ⟨ledger0, vault0, factory0, 2, 3⟩

/-- Quest 1 created at time 0: runs from 100 to 200, stake 10 of token 9,
2 slots, default 80/10/10 split. -/
def c4s1 : Chain :=
  ((createQuest chain0 1 0 "q" "" 100 200 5 3 9 10 2).getD (chain0, 0)).1

/-- User 6 (UserA) joins quest 1 at time 10. -/
def c4s2 : Chain := (joinQuest c4s1 6 10 1).getD chain0

/-- User 7 (UserB) joins quest 1 at time 20. -/
def c4s3 : Chain := (joinQuest c4s2 7 20 1).getD chain0

/-- The owner forces quest 1 to Active (the only reachable route to Active,
since the auto-activation branch of joinQuest is unreachable). -/
def c4s4 : Chain :=
  (emergencyUpdateQuestStatus c4s3 1 1 QuestStatus.Active).getD chain0

/-- Quest 1 completed at time 200 with winners = [UserA]. -/
def c4s5 : Chain := (completeQuest c4s4 1 200 1 [6]).getD chain0

/-- Second quest created on top of the settled scenario world: quest 2 runs
from 100 to 300, same stake; users 11 and 12 join it.  Its stakes sit in the
same vault and back the double-settlement counterexample for quest 1. -/
def c1b : Chain :=
  ((createQuest c4s1 1 0 "r" "" 100 300 5 3 9 10 2).getD (chain0, 0)).1

def c1c : Chain := (joinQuest c1b 6 10 1).getD chain0

def c1d : Chain := (joinQuest c1c 7 20 1).getD chain0

def c1e : Chain := (joinQuest c1d 11 30 2).getD chain0

def c1f : Chain := (joinQuest c1e 12 40 2).getD chain0

def c1g : Chain :=
  (emergencyUpdateQuestStatus c1f 1 1 QuestStatus.Active).getD chain0

/-- First settlement of quest 1 at time 200. -/
def c1h : Chain := (completeQuest c1g 1 200 1 [6]).getD chain0

/-- The owner forces the already-settled quest 1 back to Active. -/
def c1i : Chain :=
  (emergencyUpdateQuestStatus c1h 1 1 QuestStatus.Active).getD chain0

/-- Second settlement of the already-settled quest 1. -/
def c1j : Chain := (completeQuest c1i 1 200 1 [6]).getD chain0

/-- A state in which the vault's bookkeeping is fully wired: user 6 joined
quest 1 (placing 10 tokens at the vault address) and the authorized factory
address additionally registered the deposit with `depositForQuest`, as the
vault's documentation prescribes.  Every custodied token is locked. -/
def c10locked : Chain := (depositForQuest c4s2 3 1 6 9 10 10).getD chain0

/-- The owner drains the fully locked vault with `emergencyWithdraw`. -/
def c10after : Chain := (emergencyWithdraw c10locked 1 9 8 10).getD chain0

/-- Fresh MedalNFT deployment: account 1 owns the contract and address 3 is
the authorized minter. -/
def ms0 : MedalState :=
  { owners := fun _ => 0
    medals := fun _ => Medal.zero
    userMedals := fun _ => []
    questMedals := fun _ => []
    userMedalCounts := fun _ _ => 0
    tokenIdCounter := 0
    authorizedMinters := fun a => decide (a = 3)
    owner := 1 }

/-- Grey medal 1 for user 6: 2 sessions, distance 6. -/
def ms1 : MedalState :=
  ((mintQuestMedal ms0 3 6 1 .Grey "g1" "" "" 6 2 5 "" 10).getD (ms0, 0)).1

/-- Grey medal 2 for user 6: 3 sessions, distance 9. -/
def ms2 : MedalState :=
  ((mintQuestMedal ms1 3 6 1 .Grey "g2" "" "" 9 3 5 "" 20).getD (ms0, 0)).1

/-- Grey medal 3 for user 6: 4 sessions, distance 12. -/
def ms3 : MedalState :=
  ((mintQuestMedal ms2 3 6 1 .Grey "g3" "" "" 12 4 5 "" 30).getD (ms0, 0)).1

/-- User 6 upgrades the three Grey medals into one Special medal. -/
def msFinal : MedalState :=
  ((upgradeMedals ms3 6 [1, 2, 3] "t" "" "" 50).getD (ms0, 0)).1

/-- A direct settlement of quest 1 by the authorized factory address on the
state where users 6 and 7 have joined: total 20, winners [6], losers [7],
default 80/10/10 rates. -/
def c7dist : Chain :=
  (distributeQuestRewards c4s3 3 1 9 20 [6] [7] 8000 1000 1000 4 200).getD
    chain0

/-! ## Helper lemmas -/

theorem upd_same {α β : Type} [DecidableEq α] (f : α → β) (a : α) (b : β) :
    upd f a b a = b := by simp [upd]

theorem upd_other {α β : Type} [DecidableEq α] (f : α → β) (a : α) (b : β)
    (x : α) (h : x ≠ a) : upd f a b x = f x := by simp [upd, h]

theorem isSome_map_eq {α β : Type} (f : α → β) (x : Option α) :
    (x.map f).isSome = x.isSome := by cases x <;> rfl

/-! ## Claim theorems -/

/-- C1 (counterexample): settlement is not idempotent per quest.  In a
reachable state the already-settled quest 1 carries a Settlement record
(settledAt = 200), yet a second completion, and equally a direct second
invocation of distributeQuestRewards by the authorized factory address, is
accepted rather than rejected, and pays winner 6 a second time: their token
balance grows from 16 to 32, drawn from the stakes backing quest 2. -/
theorem c1_second_settlement_accepted :
    (c1h.vault.settlements 1).settledAt = 200
    ∧ c1h.ledger 9 6 = 16
    ∧ completeQuest c1i 1 200 1 [6] = some c1j
    ∧ c1j.ledger 9 6 = 32
    ∧ (distributeQuestRewards c1h 3 1 9 20 [6] [7] 8000 1000 1000 4
        201).isSome = true :=
  ⟨rfl, rfl, rfl, rfl, rfl⟩

/-- C1 (amended): distributeQuestRewards performs no already-settled check at
all — whether it succeeds is independent of the vault's `settlements`
mapping, so a second invocation for a quest that already has a Settlement
record is accepted whenever the caller is authorized, the rates are valid,
the amount is positive and the vault holds enough tokens, and it pays out a
second time. -/
theorem c1_distribute_ignores_settlements (c : Chain) (s2 : Nat → Settlement)
    (sender : Addr) (questId : Nat) (token : Token) (totalAmount : Nat)
    (winners losers : List Addr) (sr dr pf : Nat) (dao : Addr) (now : Nat) :
    (distributeQuestRewards
        { c with vault := { c.vault with settlements := s2 } }
        sender questId token totalAmount winners losers sr dr pf dao
        now).isSome
    = (distributeQuestRewards c sender questId token totalAmount winners
        losers sr dr pf dao now).isSome := by
  simp only [distributeQuestRewards, isSome_map_eq]

/-- C2 (failing input): joinQuest never calls depositForQuest.  After user 6
successfully joins quest 1 with stake 10, the stake sits at the vault's
token address on the ERC20 ledger, but the vault's storage is completely
unchanged: the per-token locked counter is still 0 (not
participant_count * stake_amount = 10) and no escrow record exists. -/
theorem c2_join_bypasses_vault :
    joinQuest c4s1 6 10 1 = some c4s2
    ∧ c4s2.vault.totalLocked 9 = 0
    ∧ c4s2.vault.escrowRecords (1, 6) = EscrowRecord.zero
    ∧ (c4s2.factory.quests 1).participantCount = 1
    ∧ (c4s2.factory.quests 1).stakeAmount = 10
    ∧ c4s2.ledger 9 2 = 10
    ∧ c4s2.vault = c4s1.vault :=
  ⟨rfl, rfl, rfl, rfl, rfl, rfl, rfl⟩

/-- C3 (failing input): cancellation of a quest with joined participants
always reverts.  In the reachable state where users 6 and 7 hold active
participations in the Open quest 1, the creator's cancelQuest call before
the start time returns none: the refund loop calls refundParticipant, which
requires a locked escrow record that joinQuest never created. -/
theorem c3_cancel_reverts_after_joins :
    (c4s3.factory.quests 1).status = QuestStatus.Open
    ∧ (50 : Nat) < (c4s3.factory.quests 1).startTime
    ∧ (c4s3.factory.quests 1).creator = 1
    ∧ (c4s3.factory.participations 1 6).isActive = true
    ∧ (c4s3.factory.participations 1 7).isActive = true
    ∧ cancelQuest c4s3 1 50 1 = none :=
  ⟨rfl, by decide, rfl, rfl, rfl, rfl⟩

/-- C4 (counterexample): in the spec's scenario (stake 10, 2 slots, both
users joined, default 80/10/10 split, winners = [UserA]) the settlement pool
is the total stake 20, so the computed winnerPool is 16, not 8, and UserA
receives 16, not 8. -/
theorem c4_pool_is_sixteen_not_eight :
    completeQuest c4s4 1 200 1 [6] = some c4s5
    ∧ (c4s5.vault.settlements 1).winnersReward = 16
    ∧ c4s5.ledger 9 6 = 16
    ∧ (c4s5.vault.settlements 1).winnersReward ≠ 8
    ∧ c4s5.ledger 9 6 ≠ 8 :=
  ⟨rfl, rfl, rfl, by decide, by decide⟩

/-- C4 (amended): in the concrete scenario the computed winnerPool is 16
(80 percent of the total stake 20), daoPool is 2, feePool is 2; UserA
receives 16, the DAO treasury 2 and the fee recipient 2; no escrow record of
either participant is locked afterwards (none was ever created, since
joinQuest bypasses the vault's bookkeeping); the quest ends Completed and
exactly one Settlement record is created, with winnersCount = 1 and
losersCount = 1. -/
theorem c4_settlement_scenario :
    completeQuest c4s4 1 200 1 [6] = some c4s5
    ∧ c4s5.vault.settlements 1 = ⟨1, 9, 20, 1, 1, 16, 2, 2, 200⟩
    ∧ c4s5.ledger 9 6 = 16
    ∧ c4s5.ledger 9 4 = 2
    ∧ c4s5.ledger 9 5 = 2
    ∧ (c4s5.vault.escrowRecords (1, 6)).isLocked = false
    ∧ (c4s5.vault.escrowRecords (1, 7)).isLocked = false
    ∧ (c4s5.factory.quests 1).status = QuestStatus.Completed
    ∧ ∀ q : Nat, q ≠ 1 → c4s5.vault.settlements q = Settlement.zero := by
  refine ⟨rfl, rfl, rfl, rfl, rfl, rfl, rfl, rfl, ?_⟩
  intro q hq
  have h : c4s5.vault.settlements
      = upd (fun _ => Settlement.zero) 1 ⟨1, 9, 20, 1, 1, 16, 2, 2, 200⟩ :=
    rfl
  rw [h, upd_other _ _ _ q hq]

/-- C4 witness: the amended theorem applied at quest id 2. -/
theorem c4_settlement_scenario_witness :
    c4s5.vault.settlements 2 = Settlement.zero :=
  c4_settlement_scenario.2.2.2.2.2.2.2.2 2 (by decide)

theorem joinQuest_success_spec (c : Chain) (sender : Addr) (now questId : Nat)
    (c2 : Chain) (h : joinQuest c sender now questId = some c2) :
    (c.factory.quests questId).status = QuestStatus.Open
    ∧ now < (c.factory.quests questId).startTime
    ∧ (c.factory.quests questId).participantCount
        < (c.factory.quests questId).maxSlots
    ∧ (c.factory.participations questId sender).isActive = false
    ∧ (c2.factory.quests questId).status = QuestStatus.Open := by
  simp only [joinQuest] at h
  split at h
  · exact absurd h (by simp)
  split at h
  · exact absurd h (by simp)
  split at h
  · exact absurd h (by simp)
  split at h
  · exact absurd h (by simp)
  split at h
  · exact absurd h (by simp)
  rename_i h1 h2 h3 h4 h5
  rw [Option.map_eq_some'] at h
  obtain ⟨l2, hl2, hc2⟩ := h
  push_neg at h2 h3 h4
  refine ⟨h2, h3, h4, by simpa using h5, ?_⟩
  subst hc2
  dsimp only
  rw [upd_same]
  rw [if_neg]
  · exact h2
  · rintro ⟨hge, _⟩
    omega

/-- C5: the auto-activation branch of joinQuest is dead code.  A successful
join always leaves the quest status Open — the branch requires
`now >= startTime` while the join itself required `now < startTime` in the
same transaction — and once the current time has reached the start time a
join does not activate the quest either: it reverts outright.  No operation
of the contract performs the claimed automatic Open to Active transition. -/
theorem c5_auto_activation_dead (c : Chain) (sender : Addr)
    (now questId : Nat) :
    (∀ c2 : Chain, joinQuest c sender now questId = some c2 →
      (c2.factory.quests questId).status = QuestStatus.Open)
    ∧ (¬ now < (c.factory.quests questId).startTime →
        joinQuest c sender now questId = none) := by
  constructor
  · intro c2 h
    exact (joinQuest_success_spec c sender now questId c2 h).2.2.2.2
  · intro h
    simp only [joinQuest]
    split
    · rfl
    split
    · rfl
    rfl

/-- C5 witness: after user 6 joins quest 1 at time 10 the quest is still
Open, and a join at the start time 100 reverts. -/
theorem c5_auto_activation_dead_witness :
    (c4s2.factory.quests 1).status = QuestStatus.Open
    ∧ joinQuest c4s1 6 100 1 = none :=
  ⟨(c5_auto_activation_dead c4s1 6 10 1).1 c4s2 rfl,
   (c5_auto_activation_dead c4s1 6 100 1).2 (by decide)⟩

/-- C8: a join succeeds only if the quest is Open, the current time is before
the start time, there is a free slot and the user has no active
participation; and once the participant count has reached the slot limit
every join attempt is rejected. -/
theorem c8_join_preconditions (c : Chain) (sender : Addr)
    (now questId : Nat) :
    (∀ c2 : Chain, joinQuest c sender now questId = some c2 →
      (c.factory.quests questId).status = QuestStatus.Open
      ∧ now < (c.factory.quests questId).startTime
      ∧ (c.factory.quests questId).participantCount
          < (c.factory.quests questId).maxSlots
      ∧ (c.factory.participations questId sender).isActive = false)
    ∧ (¬ (c.factory.quests questId).participantCount
          < (c.factory.quests questId).maxSlots →
        joinQuest c sender now questId = none) := by
  constructor
  · intro c2 h
    have s := joinQuest_success_spec c sender now questId c2 h
    exact ⟨s.1, s.2.1, s.2.2.1, s.2.2.2.1⟩
  · intro h
    simp only [joinQuest]
    split
    · rfl
    split
    · rfl
    split
    · rfl
    rfl

/-- C8 witness: the successful join of user 6 into quest 1 satisfied every
precondition, and user 11's join attempt on the full quest (2 of 2 slots
taken) is rejected. -/
theorem c8_join_preconditions_witness :
    ((c4s1.factory.quests 1).status = QuestStatus.Open
      ∧ 10 < (c4s1.factory.quests 1).startTime
      ∧ (c4s1.factory.quests 1).participantCount
          < (c4s1.factory.quests 1).maxSlots
      ∧ (c4s1.factory.participations 1 6).isActive = false)
    ∧ joinQuest c4s3 11 30 1 = none :=
  ⟨(c8_join_preconditions c4s1 6 10 1).1 c4s2 rfl,
   (c8_join_preconditions c4s3 11 30 1).2 (by decide)⟩

theorem ratesValid_none (sr dr pf : Nat)
    (h : ¬ (sr + dr + pf = 10000 ∧ pf ≤ 2000)) :
    ratesValid sr dr pf = none := by
  unfold ratesValid
  simp only [cadd]
  split
  · simp only [Option.some_bind]
    split
    · simp only [Option.some_bind]
      split
      · rfl
      · split
        · rfl
        · rename_i hsum hmax
          push_neg at hsum hmax
          unfold MAX_PROTOCOL_FEE at hmax
          exact absurd ⟨hsum, hmax⟩ h
    · rfl
  · rfl

/-- C6: distributeQuestRewards rejects (returns none, so with no state
change) every call whose rates do not sum to 10000 basis points or whose
protocol fee rate exceeds 2000 basis points. -/
theorem c6_distribute_rejects_invalid_rates (c : Chain) (sender : Addr)
    (questId : Nat) (token : Token) (totalAmount : Nat)
    (winners losers : List Addr) (sr dr pf : Nat) (dao : Addr) (now : Nat)
    (h : ¬ (sr + dr + pf = 10000 ∧ pf ≤ 2000)) :
    distributeQuestRewards c sender questId token totalAmount winners losers
      sr dr pf dao now = none := by
  unfold distributeQuestRewards distributeCore
  split
  · rfl
  rw [ratesValid_none sr dr pf h]
  rfl

/-- C6 witness: a distribution with rates 50/10/10 percent is rejected. -/
theorem c6_distribute_rejects_invalid_rates_witness :
    distributeQuestRewards chain0 3 1 9 20 [6] [7] 5000 1000 1000 4 200
      = none :=
  c6_distribute_rejects_invalid_rates chain0 3 1 9 20 [6] [7] 5000 1000 1000
    4 200 (by decide)


theorem erc20Transfer_spec (l : Token → Addr → Nat) (t : Token)
    (src dst : Addr) (amt : Nat) (l2 : Token → Addr → Nat)
    (h : erc20Transfer l t src dst amt = some l2) :
    (dst ≠ src → l2 t dst = l t dst + amt)
    ∧ (∀ x, x ≠ src → x ≠ dst → l2 t x = l t x) := by
  unfold erc20Transfer at h
  simp only [csub, cadd] at h
  split at h
  · rw [Option.some_bind] at h
    split at h
    · simp only [Option.map_some', Option.some.injEq] at h
      subst h
      constructor
      · intro hne
        simp [upd, hne]
      · intro x hx1 hx2
        simp [upd, hx1, hx2]
    · exact absurd h (by simp)
  · exact absurd h (by simp)

theorem transferFromEscrow_spec (l : Token → Addr → Nat) (t : Token)
    (vaultA dst : Addr) (amt : Nat) (l2 : Token → Addr → Nat)
    (h : transferFromEscrow l t vaultA dst amt = some l2) :
    (dst ≠ vaultA → l2 t dst = l t dst + amt)
    ∧ (∀ x, x ≠ vaultA → x ≠ dst → l2 t x = l t x) := by
  unfold transferFromEscrow at h
  split at h
  · exact absurd h (by simp)
  split at h
  · exact absurd h (by simp)
  exact erc20Transfer_spec l t vaultA dst amt l2 h

theorem payWinners_not_mem (t : Token) (vaultA : Addr) (per : Nat) :
    ∀ (ws : List Addr) (l l2 : Token → Addr → Nat),
      payWinners l t vaultA ws per = some l2 →
      ∀ x, x ∉ ws → x ≠ vaultA → l2 t x = l t x := by
  intro ws
  induction ws with
  | nil =>
    intro l l2 h x _ _
    simp only [payWinners, List.foldlM_nil] at h
    cases h
    rfl
  | cons a rest ih =>
    intro l l2 h x hx hxv
    simp only [payWinners, List.foldlM_cons, Option.bind_eq_bind'] at h
    rw [Option.bind_eq_some] at h
    obtain ⟨l1, h1, h⟩ := h
    have hx1 : x ∉ rest := fun hr => hx (List.mem_cons_of_mem a hr)
    have hxa : x ≠ a := fun he =>
      hx (by rw [he]; exact List.mem_cons_self a rest)
    rw [ih l1 l2 h x hx1 hxv]
    exact (transferFromEscrow_spec l t vaultA a per l1 h1).2 x hxv hxa

theorem payWinners_mem (t : Token) (vaultA : Addr) (per : Nat) :
    ∀ (ws : List Addr) (l l2 : Token → Addr → Nat),
      payWinners l t vaultA ws per = some l2 → ws.Nodup →
      ∀ w ∈ ws, w ≠ vaultA → l2 t w = l t w + per := by
  intro ws
  induction ws with
  | nil =>
    intro l l2 h _ w hw
    exact absurd hw (List.not_mem_nil w)
  | cons a rest ih =>
    intro l l2 h hnd w hw hwv
    simp only [payWinners, List.foldlM_cons, Option.bind_eq_bind'] at h
    rw [Option.bind_eq_some] at h
    obtain ⟨l1, h1, h⟩ := h
    rcases List.mem_cons.mp hw with he | hm
    · have hnotin : a ∉ rest := (List.nodup_cons.mp hnd).1
      have hav : a ≠ vaultA := he ▸ hwv
      have hstep : l1 t a = l t a + per :=
        (transferFromEscrow_spec l t vaultA a per l1 h1).1 hav
      have hrest : l2 t a = l1 t a :=
        payWinners_not_mem t vaultA per rest l1 l2 h a hnotin hav
      rw [he, hrest, hstep]
    · have hna : w ≠ a := by
        intro he2
        exact (List.nodup_cons.mp hnd).1 (he2 ▸ hm)
      have hstep : l1 t w = l t w :=
        (transferFromEscrow_spec l t vaultA a per l1 h1).2 w hwv hna
      rw [ih l1 l2 h (List.nodup_cons.mp hnd).2 w hm hwv, hstep]

theorem payOut_spec (l : Token → Addr → Nat) (token : Token) (vaultA : Addr)
    (winners : List Addr) (wr da pfe : Nat) (dao fr : Addr)
    (l3 : Token → Addr → Nat)
    (h : payOut l token vaultA winners wr da pfe dao fr = some l3)
    (hnd : winners.Nodup) :
    (∀ w ∈ winners, w ≠ vaultA → w ≠ dao → w ≠ fr → 0 < wr →
      l3 token w = l token w + wr / winners.length)
    ∧ (dao ∉ winners → dao ≠ vaultA → dao ≠ fr → dao ≠ 0 →
      l3 token dao = l token dao + da)
    ∧ (fr ∉ winners → fr ≠ vaultA → fr ≠ dao → fr ≠ 0 →
      l3 token fr = l token fr + pfe) := by
  unfold payOut at h
  rw [Option.bind_eq_some] at h
  obtain ⟨l1, hA, h⟩ := h
  rw [Option.bind_eq_some] at h
  obtain ⟨l2, hB, hC⟩ := h
  refine ⟨?_, ?_, ?_⟩
  · intro w hw hwv hwd hwf hwr
    have h1 : l1 token w = l token w + wr / winners.length := by
      split at hA
      · exact payWinners_mem token vaultA (wr / winners.length) winners l l1
          hA hnd w hw hwv
      · rename_i hcond
        exact absurd ⟨List.length_pos.mpr (List.ne_nil_of_mem hw), hwr⟩ hcond
    have h2 : l2 token w = l1 token w := by
      split at hB
      · exact (erc20Transfer_spec l1 token vaultA dao da l2 hB).2 w hwv hwd
      · exact (Option.some.inj hB) ▸ rfl
    have h3 : l3 token w = l2 token w := by
      split at hC
      · exact (erc20Transfer_spec l2 token vaultA fr pfe l3 hC).2 w hwv hwf
      · exact (Option.some.inj hC) ▸ rfl
    rw [h3, h2, h1]
  · intro hdw hdv hdf hd0
    have h1 : l1 token dao = l token dao := by
      split at hA
      · exact payWinners_not_mem token vaultA (wr / winners.length) winners
          l l1 hA dao hdw hdv
      · exact (Option.some.inj hA) ▸ rfl
    have h2 : l2 token dao = l1 token dao + da := by
      split at hB
      · exact (erc20Transfer_spec l1 token vaultA dao da l2 hB).1 hdv
      · rename_i hcond
        have hda : da = 0 := by
          by_contra hne
          exact hcond ⟨Nat.pos_of_ne_zero hne, hd0⟩
        rw [hda, Option.some.inj hB, Nat.add_zero]
    have h3 : l3 token dao = l2 token dao := by
      split at hC
      · exact (erc20Transfer_spec l2 token vaultA fr pfe l3 hC).2 dao hdv hdf
      · exact (Option.some.inj hC) ▸ rfl
    rw [h3, h2, h1]
  · intro hfw hfv hfd hf0
    have h1 : l1 token fr = l token fr := by
      split at hA
      · exact payWinners_not_mem token vaultA (wr / winners.length) winners
          l l1 hA fr hfw hfv
      · exact (Option.some.inj hA) ▸ rfl
    have h2 : l2 token fr = l1 token fr := by
      split at hB
      · exact (erc20Transfer_spec l1 token vaultA dao da l2 hB).2 fr hfv hfd
      · exact (Option.some.inj hB) ▸ rfl
    have h3 : l3 token fr = l2 token fr + pfe := by
      split at hC
      · exact (erc20Transfer_spec l2 token vaultA fr pfe l3 hC).1 hfv
      · rename_i hcond
        have hpf : pfe = 0 := by
          by_contra hne
          exact hcond ⟨Nat.pos_of_ne_zero hne, hf0⟩
        rw [hpf, Option.some.inj hC, Nat.add_zero]
    rw [h3, h2, h1]

theorem computePools_some (totalAmount sr dr pf : Nat)
    (pools : Nat × Nat × Nat)
    (h : computePools totalAmount sr dr pf = some pools) :
    pools = (totalAmount * sr / 10000, totalAmount * dr / 10000,
      totalAmount * pf / 10000) := by
  unfold computePools at h
  simp only [cmul] at h
  split at h
  · rw [Option.some_bind] at h
    split at h
    · rw [Option.some_bind] at h
      split at h
      · simp only [Option.map_some', Option.some.injEq] at h
        exact h.symm
      · exact absurd h (by simp)
    · exact absurd h (by simp)
  · exact absurd h (by simp)

theorem distributeQuestRewards_ledger (c : Chain) (sender : Addr)
    (questId : Nat) (token : Token) (totalAmount : Nat)
    (winners losers : List Addr) (sr dr pf : Nat) (dao : Addr) (now : Nat)
    (c2 : Chain)
    (h : distributeQuestRewards c sender questId token totalAmount winners
      losers sr dr pf dao now = some c2) :
    ∃ l3, payOut c.ledger token c.vaultAddr winners
        (totalAmount * sr / 10000) (totalAmount * dr / 10000)
        (totalAmount * pf / 10000) dao c.vault.protocolFeeRecipient
        = some l3
      ∧ c2.ledger = l3 := by
  unfold distributeQuestRewards at h
  rw [Option.map_eq_some'] at h
  obtain ⟨o, ho, hc2⟩ := h
  unfold distributeCore at ho
  split at ho
  · exact absurd ho (by simp)
  rw [Option.bind_eq_some] at ho
  obtain ⟨u, _, ho⟩ := ho
  split at ho
  · exact absurd ho (by simp)
  rw [Option.bind_eq_some] at ho
  obtain ⟨pools, hp, ho⟩ := ho
  rw [Option.bind_eq_some] at ho
  obtain ⟨l3, hpay, ho⟩ := ho
  rw [Option.map_eq_some'] at ho
  obtain ⟨acc, _, hoo⟩ := ho
  have hpools := computePools_some totalAmount sr dr pf pools hp
  subst hpools
  refine ⟨l3, by simpa using hpay, ?_⟩
  subst hc2
  subst hoo
  rfl

/-- C7: under a successful settlement with a duplicate-free winners list and
a positive winner pool, every winner (distinct from the vault, the DAO
treasury and the fee recipient) receives exactly
floor(winnerPool / number_of_winners) tokens; the DAO treasury receives
exactly the daoPool and the fee recipient exactly the feePool, so the
division remainder is paid to none of them (it stays in the vault). -/
theorem c7_winner_pool_split (c : Chain) (sender : Addr) (questId : Nat)
    (token : Token) (totalAmount : Nat) (winners losers : List Addr)
    (sr dr pf : Nat) (dao : Addr) (now : Nat) (c2 : Chain) (w : Addr)
    (hrun : distributeQuestRewards c sender questId token totalAmount winners
      losers sr dr pf dao now = some c2)
    (hnd : winners.Nodup) (hw : w ∈ winners)
    (hpos : 0 < totalAmount * sr / 10000)
    (hwv : w ≠ c.vaultAddr) (hwd : w ≠ dao)
    (hwf : w ≠ c.vault.protocolFeeRecipient) :
    c2.ledger token w
      = c.ledger token w + totalAmount * sr / 10000 / winners.length
    ∧ (dao ∉ winners → dao ≠ c.vaultAddr →
        dao ≠ c.vault.protocolFeeRecipient → dao ≠ 0 →
        c2.ledger token dao = c.ledger token dao + totalAmount * dr / 10000)
    ∧ (c.vault.protocolFeeRecipient ∉ winners →
        c.vault.protocolFeeRecipient ≠ c.vaultAddr →
        c.vault.protocolFeeRecipient ≠ dao →
        c.vault.protocolFeeRecipient ≠ 0 →
        c2.ledger token c.vault.protocolFeeRecipient
          = c.ledger token c.vault.protocolFeeRecipient
            + totalAmount * pf / 10000) := by
  obtain ⟨l3, hpay, hl⟩ := distributeQuestRewards_ledger c sender questId
    token totalAmount winners losers sr dr pf dao now c2 hrun
  have hspec := payOut_spec c.ledger token c.vaultAddr winners
    (totalAmount * sr / 10000) (totalAmount * dr / 10000)
    (totalAmount * pf / 10000) dao c.vault.protocolFeeRecipient l3 hpay hnd
  rw [hl]
  exact ⟨hspec.1 w hw hwv hwd hwf hpos, hspec.2.1, hspec.2.2⟩

/-- C7 witness: in the concrete settlement of 20 tokens with winners [6],
winner 6 receives 16, the treasury 2 and the fee recipient 2. -/
theorem c7_winner_pool_split_witness :
    c7dist.ledger 9 6
      = c4s3.ledger 9 6 + 20 * 8000 / 10000 / ([6] : List Addr).length
    ∧ c7dist.ledger 9 4 = c4s3.ledger 9 4 + 20 * 1000 / 10000
    ∧ c7dist.ledger 9 5 = c4s3.ledger 9 5 + 20 * 1000 / 10000 := by
  have h := c7_winner_pool_split c4s3 3 1 9 20 [6] [7] 8000 1000 1000 4 200
    c7dist 6 rfl (by decide) (by decide) (by decide) (by decide) (by decide)
    (by decide)
  exact ⟨h.1, h.2.1 (by decide) (by decide) (by decide) (by decide),
    h.2.2 (by decide) (by decide) (by decide) (by decide)⟩

theorem burnLoop_spec (sender : Addr) (medals : Nat → Medal) :
    ∀ (ids : List Nat) (ow : Nat → Addr) (st : Option MedalType)
      (dist sess : Nat) (ow2 : Nat → Addr) (t : MedalType) (d2 se2 : Nat),
      burnLoop sender medals ids ow st dist sess = some (ow2, t, d2, se2) →
      (∀ id ∈ ids, ow id = sender ∧ (medals id).isUpgradeable = true
        ∧ (medals id).medalType = t)
      ∧ d2 = dist + (ids.map fun i => (medals i).distanceKm).sum
      ∧ se2 = sess + (ids.map fun i => (medals i).completedSessions).sum
      ∧ (∀ id ∈ ids, ow2 id = 0)
      ∧ (∀ x, x ∉ ids → ow2 x = ow x)
      ∧ (∀ t0, st = some t0 → t = t0) := by
  intro ids
  induction ids with
  | nil =>
    intro ow st dist sess ow2 t d2 se2 h
    cases st with
    | none => exact absurd h (by simp [burnLoop])
    | some t0 =>
      simp only [burnLoop, Option.some.injEq, Prod.mk.injEq] at h
      obtain ⟨how, ht, hd, hs⟩ := h
      subst how
      subst ht
      subst hd
      subst hs
      refine ⟨by simp, by simp, by simp, by simp, fun x _ => rfl, ?_⟩
      intro t1 h1
      cases h1
      rfl
  | cons id rest ih =>
    intro ow st dist sess ow2 t d2 se2 h
    simp only [burnLoop] at h
    split at h
    · exact absurd h (by simp)
    split at h
    · exact absurd h (by simp)
    split at h
    · exact absurd h (by simp)
    rename_i hz hns hupg
    push_neg at hns
    have hupg2 : (medals id).isUpgradeable = true := by
      simpa using hupg
    have hsender : ow id = sender := hns
    have hs0 : sender ≠ 0 := fun h0 => hz (hsender.trans h0)
    split at h
    · -- match branch: st is none
      simp only [cadd] at h
      split at h
      · rw [Option.some_bind] at h
        split at h
        · rw [Option.some_bind] at h
          obtain ⟨hmem, hd, hs, hz2, hpres, hty⟩ :=
            ih (upd ow id 0) (some (medals id).medalType)
              (dist + (medals id).distanceKm)
              (sess + (medals id).completedSessions) ow2 t d2 se2 h
          have htid : (medals id).medalType = t :=
            (hty (medals id).medalType rfl).symm
          refine ⟨?_, ?_, ?_, ?_, ?_, ?_⟩
          · intro j hj
            rcases List.mem_cons.mp hj with hj | hj
            · rw [hj]
              exact ⟨hsender, hupg2, htid⟩
            · obtain ⟨ho, hu, hm⟩ := hmem j hj
              refine ⟨?_, hu, hm⟩
              by_cases hji : j = id
              · rw [hji, upd_same] at ho
                exact absurd ho.symm hs0
              · rw [upd_other _ _ _ _ hji] at ho
                exact ho
          · simp only [List.map_cons, List.sum_cons]
            omega
          · simp only [List.map_cons, List.sum_cons]
            omega
          · intro j hj
            rcases List.mem_cons.mp hj with hj | hj
            · by_cases hmem2 : id ∈ rest
              · rw [hj]
                exact hz2 id hmem2
              · rw [hj, hpres id hmem2, upd_same]
            · exact hz2 j hj
          · intro x hx
            have hx1 : x ≠ id := fun he =>
              hx (by rw [he]; exact List.mem_cons_self id rest)
            have hx2 : x ∉ rest := fun he => hx (List.mem_cons_of_mem id he)
            rw [hpres x hx2, upd_other _ _ _ _ hx1]
          · intro t1 h1
            exact Option.noConfusion h1
        · exact absurd h (by simp)
      · exact absurd h (by simp)
    · -- match branch: st is some t0
      rename_i t0
      split at h
      · exact absurd h (by simp)
      rename_i hmty
      push_neg at hmty
      simp only [cadd] at h
      split at h
      · rw [Option.some_bind] at h
        split at h
        · rw [Option.some_bind] at h
          obtain ⟨hmem, hd, hs, hz2, hpres, hty⟩ :=
            ih (upd ow id 0) (some t0)
              (dist + (medals id).distanceKm)
              (sess + (medals id).completedSessions) ow2 t d2 se2 h
          have htt0 : t = t0 := hty t0 rfl
          refine ⟨?_, ?_, ?_, ?_, ?_, ?_⟩
          · intro j hj
            rcases List.mem_cons.mp hj with hj | hj
            · rw [hj]
              refine ⟨hsender, hupg2, ?_⟩
              rw [hmty, htt0]
            · obtain ⟨ho, hu, hm⟩ := hmem j hj
              refine ⟨?_, hu, hm⟩
              by_cases hji : j = id
              · rw [hji, upd_same] at ho
                exact absurd ho.symm hs0
              · rw [upd_other _ _ _ _ hji] at ho
                exact ho
          · simp only [List.map_cons, List.sum_cons]
            omega
          · simp only [List.map_cons, List.sum_cons]
            omega
          · intro j hj
            rcases List.mem_cons.mp hj with hj | hj
            · by_cases hmem2 : id ∈ rest
              · rw [hj]
                exact hz2 id hmem2
              · rw [hj, hpres id hmem2, upd_same]
            · exact hz2 j hj
          · intro x hx
            have hx1 : x ≠ id := fun he =>
              hx (by rw [he]; exact List.mem_cons_self id rest)
            have hx2 : x ∉ rest := fun he => hx (List.mem_cons_of_mem id he)
            rw [hpres x hx2, upd_other _ _ _ _ hx1]
          · intro t1 h1
            exact (Option.some.inj h1) ▸ htt0
        · exact absurd h (by simp)
      · exact absurd h (by simp)

theorem upgradeMedals_success_spec (s : MedalState) (sender : Addr)
    (ids : List Nat) (t1 t2 t3 : String) (now : Nat) (s2 : MedalState)
    (newId : Nat)
    (h : upgradeMedals s sender ids t1 t2 t3 now = some (s2, newId))
    (hbound : ∀ id ∈ ids, id ≤ s.tokenIdCounter) :
    3 ≤ ids.length
    ∧ (∀ id ∈ ids, s.owners id = sender
        ∧ (s.medals id).isUpgradeable = true)
    ∧ (∀ i ∈ ids, ∀ j ∈ ids,
        (s.medals i).medalType = (s.medals j).medalType)
    ∧ newId = s.tokenIdCounter + 1
    ∧ (s2.medals newId).medalType = MedalType.Special
    ∧ (s2.medals newId).isUpgradeable = false
    ∧ (s2.medals newId).completedSessions
        = (ids.map fun i => (s.medals i).completedSessions).sum
    ∧ (s2.medals newId).distanceKm
        = (ids.map fun i => (s.medals i).distanceKm).sum
    ∧ (∀ id ∈ ids, s2.owners id = 0) := by
  unfold upgradeMedals at h
  split at h
  · exact absurd h (by simp)
  rename_i hlen
  rw [Option.bind_eq_some] at h
  obtain ⟨r, hloop, h⟩ := h
  obtain ⟨ow2, t, d2, se2⟩ := r
  dsimp only at h
  rw [Option.bind_eq_some] at h
  obtain ⟨nr, hnr, h⟩ := h
  split at h
  · exact absurd h (by simp)
  split at h
  · exact absurd h (by simp)
  rename_i hfresh hs0
  simp only [Option.some.injEq, Prod.mk.injEq] at h
  obtain ⟨hS, hid⟩ := h
  obtain ⟨hmem, hd, hs, hzero, hpres, _⟩ :=
    burnLoop_spec sender s.medals ids s.owners none 0 0 ow2 t d2 se2 hloop
  subst hS
  subst hid
  push_neg at hlen
  refine ⟨hlen, ?_, ?_, rfl, ?_, ?_, ?_, ?_, ?_⟩
  · intro j hj
    obtain ⟨ho, hu, _⟩ := hmem j hj
    exact ⟨ho, hu⟩
  · intro i hi j hj
    rw [(hmem i hi).2.2, (hmem j hj).2.2]
  · dsimp only
    rw [upd_same]
  · dsimp only
    rw [upd_same]
  · dsimp only
    rw [upd_same]
    simpa using hs
  · dsimp only
    rw [upd_same]
    simpa using hd
  · intro j hj
    dsimp only
    have hne : j ≠ s.tokenIdCounter + 1 := by
      have := hbound j hj
      omega
    rw [upd_other _ _ _ _ hne]
    exact hzero j hj

/-- C9: upgradeMedals succeeds only when given at least 3 source medals, all
owned by the caller, all upgradeable and all of the same type; on success it
burns exactly the supplied source medals (their owner becomes the zero
address, so the tokens no longer exist) and mints exactly one new
Special-type, non-upgradeable medal whose sessions and distance equal the
sums of the sources' (the side condition that source ids do not exceed the
token counter holds in every reachable state, since ids are only ever
allocated from the counter).  In the concrete case of three Grey medals with
sessions 2, 3, 4 and distances 6, 9, 12 the new medal has rarity Uncommon,
sessions 9 and distance 27, and the sources are burned.  A failure returns
none, so a violation never leaves a partial burn. -/
theorem c9_upgrade_burns_and_mints :
    (∀ (s : MedalState) (sender : Addr) (ids : List Nat)
        (t1 t2 t3 : String) (now : Nat) (s2 : MedalState) (newId : Nat),
      upgradeMedals s sender ids t1 t2 t3 now = some (s2, newId) →
      (∀ id ∈ ids, id ≤ s.tokenIdCounter) →
      3 ≤ ids.length
      ∧ (∀ id ∈ ids, s.owners id = sender
          ∧ (s.medals id).isUpgradeable = true)
      ∧ (∀ i ∈ ids, ∀ j ∈ ids,
          (s.medals i).medalType = (s.medals j).medalType)
      ∧ newId = s.tokenIdCounter + 1
      ∧ (s2.medals newId).medalType = MedalType.Special
      ∧ (s2.medals newId).isUpgradeable = false
      ∧ (s2.medals newId).completedSessions
          = (ids.map fun i => (s.medals i).completedSessions).sum
      ∧ (s2.medals newId).distanceKm
          = (ids.map fun i => (s.medals i).distanceKm).sum
      ∧ (∀ id ∈ ids, s2.owners id = 0))
    ∧ (upgradeMedals ms3 6 [1, 2, 3] "t" "" "" 50 = some (msFinal, 4)
      ∧ (msFinal.medals 4).rarity = Rarity.Uncommon
      ∧ (msFinal.medals 4).medalType = MedalType.Special
      ∧ (msFinal.medals 4).isUpgradeable = false
      ∧ (msFinal.medals 4).completedSessions = 9
      ∧ (msFinal.medals 4).distanceKm = 27
      ∧ msFinal.owners 1 = 0 ∧ msFinal.owners 2 = 0
      ∧ msFinal.owners 3 = 0) := by
  constructor
  · intro s sender ids t1 t2 t3 now s2 newId h hbound
    exact upgradeMedals_success_spec s sender ids t1 t2 t3 now s2 newId h
      hbound
  · exact ⟨rfl, rfl, rfl, rfl, rfl, rfl, rfl, rfl, rfl⟩

/-- C9 witness: the universal part applied to the concrete upgrade. -/
theorem c9_upgrade_burns_and_mints_witness :
    msFinal.owners 1 = 0 ∧ 3 ≤ ([1, 2, 3] : List Nat).length :=
  ⟨(c9_upgrade_burns_and_mints.1 ms3 6 [1, 2, 3] "t" "" "" 50 msFinal 4 rfl
      (by decide)).2.2.2.2.2.2.2.2 1 (by decide),
   (c9_upgrade_burns_and_mints.1 ms3 6 [1, 2, 3] "t" "" "" 50 msFinal 4 rfl
      (by decide)).1⟩

/-- C10 (implicit): emergencyWithdraw is callable by the vault owner for any
positive amount and nonzero recipient and leaves the whole vault storage —
escrow records, settlements, and the per-token totalLocked counter —
untouched; consequently in the concrete state where all 10 custodied tokens
are locked, the owner's withdrawal succeeds and leaves totalLocked = 10
strictly greater than the vault's remaining token balance 0. -/
theorem c10_emergency_withdraw_ignores_locks :
    (∀ (c : Chain) (sender : Addr) (token : Token) (recipient : Addr)
        (amount : Nat) (c2 : Chain),
      emergencyWithdraw c sender token recipient amount = some c2 →
      c2.vault = c.vault ∧ sender = c.vault.owner ∧ recipient ≠ 0
        ∧ 0 < amount)
    ∧ (emergencyWithdraw c10locked 1 9 8 10 = some c10after
      ∧ c10after.vault.totalLocked 9 = 10
      ∧ c10after.ledger 9 2 = 0
      ∧ c10after.ledger 9 2 < c10after.vault.totalLocked 9) := by
  constructor
  · intro c sender token recipient amount c2 h
    unfold emergencyWithdraw at h
    split at h
    · exact absurd h (by simp)
    split at h
    · exact absurd h (by simp)
    split at h
    · exact absurd h (by simp)
    rename_i h1 h2 h3
    push_neg at h1
    rw [Option.map_eq_some'] at h
    obtain ⟨l2, _, hc2⟩ := h
    subst hc2
    exact ⟨rfl, h1, h2, Nat.pos_of_ne_zero h3⟩
  · exact ⟨rfl, rfl, rfl, by decide⟩

/-- C10 witness: the universal part applied to the concrete withdrawal. -/
theorem c10_emergency_withdraw_ignores_locks_witness :
    c10after.vault = c10locked.vault ∧ (1 : Addr) = c10locked.vault.owner
      ∧ (8 : Addr) ≠ 0 ∧ 0 < 10 :=
  c10_emergency_withdraw_ignores_locks.1 c10locked 1 9 8 10 c10after rfl

end RunDao
